import Mathlib

/-!
Verification of the MAMA OpenClaw plugin (`src/index.ts`, `src/utils.ts`).

The TypeScript sources are shallowly embedded: JS strings are modelled as
`List Char` (the relevant texts are plain-BMP, where JS UTF-16 length agrees
with codepoint count), JS millisecond epoch numbers as `Int`, fallible
backend calls as explicit `Except`/`Bool` inputs, and the module-level
singleton state (`src/index.ts` lines 98-110) as explicit state records
threaded through the event-handler functions.
-/

namespace Mama

/-- A JS string, modelled as its sequence of characters. -/
abbrev Str := List Char

/-- `truncateText` from `src/utils.ts` (lines 9-14): return `text` unchanged
when its length is at most `maxLen`, otherwise the `maxLen`-character prefix
followed by a three-character ellipsis. -/
def truncateText (text : Str) (maxLen : Nat) : Str :=
  if text.length ≤ maxLen then text
  else text.take maxLen ++ "...".data

/-- JS `String.prototype.includes` (case-sensitive substring containment). -/
def containsSub (pat : Str) : Str → Bool
  | [] => pat.isEmpty
  | c :: rest => List.isPrefixOf pat (c :: rest) || containsSub pat rest

/-- The JS regex class `\s` restricted to the members that can occur in the
texts handled here (space, tab, newline, carriage return, vertical tab,
form feed, no-break space). -/
def isJsSpace (c : Char) : Bool :=
  c = ' ' || c = '\t' || c = '\n' || c = '\r' || c = '\x0b' || c = '\x0c' || c = ' '

/-- The JS regex class `\w` (ASCII letters, digits, underscore). -/
def isWordChar (c : Char) : Bool :=
  ('a' ≤ c && c ≤ 'z') || ('A' ≤ c && c ≤ 'Z') || ('0' ≤ c && c ≤ '9') || c = '_'

/-- The regex character class `[\w_-]` used by the link-annotation pattern. -/
def isWordDash (c : Char) : Bool := isWordChar c || c = '-'

/-- Case-insensitive literal match at the head of `s` (the `/i` flag, ASCII
case folding). On success returns the consumed slice of `s` (the text as it
appears in `s`, which is what a JS match reports) and the remainder. -/
def matchLitCI : Str → Str → Option (Str × Str)
  | [], s => some ([], s)
  | _ :: _, [] => none
  | p :: ps, c :: cs =>
    if p.toLower = c.toLower then
      match matchLitCI ps cs with
      | some (m, r) => some (c :: m, r)
      | none => none
    else none

/-- First alternative of the link regex in `formatReasoning`
(`src/utils.ts` line 66): `(builds_on|debates):\s*[\w_-]+`. The `\s*` and
`[\w_-]+` classes are disjoint, so the greedy match is maximal munch. -/
def matchBranch1 (s : Str) : Option Str :=
  match (matchLitCI "builds_on".data s).orElse (fun _ => matchLitCI "debates".data s) with
  | none => none
  | some kwr =>
    match kwr.2 with
    | [] => none
    | c :: r2 =>
      if c = ':' then
        if ((r2.drop (r2.takeWhile isJsSpace).length).takeWhile isWordDash).isEmpty then none
        else some (kwr.1 ++ ':' :: (r2.takeWhile isJsSpace
          ++ (r2.drop (r2.takeWhile isJsSpace).length).takeWhile isWordDash))
      else none

/-- Second alternative of the link regex: `synthesizes:\s*\[[^\]]+\]`. -/
def matchBranch2 (s : Str) : Option Str :=
  match matchLitCI "synthesizes:".data s with
  | none => none
  | some kwr =>
    let sp := kwr.2.takeWhile isJsSpace
    match kwr.2.drop sp.length with
    | [] => none
    | c :: r2 =>
      if c = '[' then
        let inner := r2.takeWhile (fun d => !(d = ']'))
        if inner.isEmpty then none
        else
          match r2.drop inner.length with
          | [] => none
          | c2 :: _ => if c2 = ']' then some (kwr.1 ++ sp ++ '[' :: (inner ++ [']'])) else none
      else none

/-- The link regex tried at one position: alternative 1, then alternative 2. -/
def linkMatchAt (s : Str) : Option Str :=
  (matchBranch1 s).orElse (fun _ => matchBranch2 s)

/-- `reasoning.match(regex)` without the `g` flag: the leftmost match, with
the earlier regex alternative preferred at equal positions. -/
def firstLinkMatch : Str → Option Str
  | [] => none
  | c :: rest =>
    match linkMatchAt (c :: rest) with
    | some m => some m
    | none => firstLinkMatch rest

/-- The `truncated` local of `formatReasoning` (`src/utils.ts` line 69):
`reasoning.length > maxLen ? reasoning.substring(0, maxLen) + '...' : reasoning`. -/
def truncPart (reasoning : Str) (maxLen : Nat) : Str :=
  if maxLen < reasoning.length then reasoning.take maxLen ++ "...".data else reasoning

/-- `formatReasoning` from `src/utils.ts` (lines 60-77). The glyph characters
are exactly the four characters present in the source file on line 73.
The source default for `maxLen` is 80; callers in `src/index.ts` pass 100
and 150 explicitly. -/
def formatReasoning (reasoning : Str) (maxLen : Nat) : Str :=
  if reasoning.isEmpty then []
  else
    match firstLinkMatch reasoning with
    | none => truncPart reasoning maxLen
    | some m =>
      if containsSub m (truncPart reasoning maxLen) then truncPart reasoning maxLen
      else truncPart reasoning maxLen ++ "\n  ðŸ”— ".data ++ m

/-- `isRecentCheckpoint` from `src/utils.ts` (lines 82-89). Timestamps are
millisecond epoch values (`Date.getTime()` / `Date.now()`), modelled as `Int`.
The source default for `thresholdMs` is `5 * 60 * 1000 = 300000`. -/
def isRecentCheckpoint (checkpointTime now thresholdMs : Int) : Bool :=
  decide (now - checkpointTime < thresholdMs)

/-- The staleness gate of the `session_end` handler (`src/index.ts`
lines 387-392): skip the auto-checkpoint iff a checkpoint exists and it is
recent. `existing` is the loaded checkpoint's timestamp, if any. -/
def shouldSkip (existing : Option Int) (now thresholdMs : Int) : Bool :=
  match existing with
  | some t => isRecentCheckpoint t now thresholdMs
  | none => false

/-- C9: for every text strictly longer than the limit `L`, `truncateText`
produces the `L`-character prefix plus a three-character ellipsis (length
`L + 3`), and `truncateText` is idempotent at the same limit. -/
theorem truncateText_long (text : Str) (L : Nat) (h : L < text.length) :
    (truncateText text L).length = L + 3 ∧
    truncateText (truncateText text L) L = truncateText text L := by
  have hlen : (text.take L ++ "...".data).length = L + 3 := by
    simp [List.length_take]
    omega
  have hnotle : ¬ text.length ≤ L := by omega
  constructor
  · simp only [truncateText, if_neg hnotle]
    exact hlen
  · simp only [truncateText, if_neg hnotle]
    rw [if_neg (by omega : ¬ (text.take L ++ "...".data).length ≤ L)]
    have htake : (text.take L ++ "...".data).take L = text.take L := by
      rw [List.take_append_eq_append_take]
      have h1 : (text.take L).length = L := by simp [List.length_take]; omega
      simp [h1, List.take_take]
    rw [htake]

/-- Witness for C9 at `text = "hello world"`, `L = 5`. -/
theorem truncateText_long_witness :
    (truncateText "hello world".data 5).length = 5 + 3 ∧
    truncateText (truncateText "hello world".data 5) 5 = truncateText "hello world".data 5 :=
  truncateText_long "hello world".data 5 (by decide)

/-- C3 counterexample: with checkpoint time `T = 0` and now `N = 100`, the
threshold `100 ≥ N - T` does NOT make `shouldSkip` true — the source
comparison `now - checkpointTime < thresholdMs` is strict, so the boundary
threshold `thresholdMs = N - T` yields `false`, contradicting the claim that
every threshold `≥ N - T` yields `true`. -/
theorem shouldSkip_boundary_cex :
    (100 : Int) ≥ 100 - 0 ∧ shouldSkip (some 0) 100 100 = false := by decide

/-- C3 amended: for a checkpoint at time `T` and current time `N ≥ T`,
`shouldSkip` is true for every threshold strictly greater than `N - T` and
false for every threshold `≤ N - T` (the code compares with strict `<`). -/
theorem shouldSkip_monotone (T N th : Int) (_h : T ≤ N) :
    (N - T < th → shouldSkip (some T) N th = true) ∧
    (th ≤ N - T → shouldSkip (some T) N th = false) := by
  unfold shouldSkip isRecentCheckpoint
  constructor
  · intro h'
    simpa using h'
  · intro h'
    simpa using not_lt.mpr h'

/-- Witness for C3 (amended) at the spec's concrete numbers: a checkpoint
600000 ms old with the default threshold 300000 ms is not skipped. -/
theorem shouldSkip_monotone_witness :
    (0 : Int) ≤ 600000 ∧ shouldSkip (some 0) 600000 300000 = false :=
  ⟨by decide, (shouldSkip_monotone 0 600000 300000 (by decide)).2 (by decide)⟩

/-! ## The event coordinator of `src/index.ts` -/

/-- A decision record as rendered by the handlers (interface `MAMADecision`,
`src/index.ts` lines 65-77). `similarityPct` models the already-rounded
percentage `Math.round((r.similarity || 0) * 100)` of lines 263 and 570;
the floating-point similarity itself is never consumed elsewhere. -/
structure MAMADecision where
  id : Str
  topic : Str
  decision : Str
  reasoning : Str
  similarityPct : Nat
  outcome : Option Str
deriving DecidableEq

/-- A checkpoint (interface `MAMACheckpoint`, `src/index.ts` lines 79-84).
`timestampISO` models `new Date(checkpoint.timestamp).toISOString()` as the
already-serialized string. -/
structure MAMACheckpoint where
  summary : Str
  next_steps : Option Str
  timestampISO : Str
deriving DecidableEq

/-- The module-level session state of `src/index.ts` (lines 104-110). -/
structure SessionState where
  sessionStartedAt : Option Str
  lastUserPrompt : Option Str
  lastCompactionAt : Option Str
  lastAutoCaptureCandidates : List Str
  compactionOccurred : Bool
deriving DecidableEq

/-- The session state as reset by the `session_start` handler
(`src/index.ts` lines 188-192), with `sessionStartedAt` left abstract. -/
def freshSessionState : SessionState :=
  { sessionStartedAt := none, lastUserPrompt := none, lastCompactionAt := none,
    lastAutoCaptureCandidates := [], compactionOccurred := false }

/-- JS truthiness of an optional-string field (`undefined` and `''` falsy). -/
def jsTruthy : Option Str → Bool
  | some s => !s.isEmpty
  | none => false

/-- Decimal rendering of a number interpolated into a template literal. -/
def natToStr (n : Nat) : Str := (toString n).data

/-- The ` (${outcome})` parenthetical appended when `r.outcome` is truthy
(`src/index.ts` lines 265 and 284). -/
def renderOutcome (o : Option Str) : Str :=
  match o with
  | some s => if s.isEmpty then [] else " (".data ++ s ++ ")".data
  | none => []

/-- One line of the semantic-match section (`src/index.ts` lines 262-268). -/
def renderSemanticLine (r : MAMADecision) : Str :=
  "- **".data ++ r.topic ++ "** [".data ++ natToStr r.similarityPct ++ "%]: ".data
    ++ r.decision ++ renderOutcome r.outcome
    ++ "\n  _".data ++ formatReasoning r.reasoning 100 ++ "_\n".data
    ++ "  ID: `".data ++ r.id ++ "`\n".data

/-- The semantic-match section (`src/index.ts` lines 260-270), empty when
there are no semantic results. -/
def renderSemanticSection (rs : List MAMADecision) : Str :=
  if rs.isEmpty then []
  else "## Relevant Decisions (semantic match)\n\n".data
    ++ (rs.map renderSemanticLine).flatten ++ "\n".data

/-- The checkpoint section (`src/index.ts` lines 272-278), empty when no
checkpoint was loaded; the next-steps line is emitted only when
`checkpoint.next_steps` is truthy. -/
def renderCheckpointSection : Option MAMACheckpoint → Str
  | none => []
  | some cp =>
    "## Last Checkpoint (".data ++ cp.timestampISO ++ ")\n\n".data
      ++ "**Summary:** ".data ++ cp.summary ++ "\n\n".data
      ++ (match cp.next_steps with
          | some ns => if ns.isEmpty then [] else "**Next Steps:** ".data ++ ns ++ "\n\n".data
          | none => [])

/-- One line of the recent-decisions section (`src/index.ts` lines 282-286). -/
def renderRecentLine (d : MAMADecision) : Str :=
  "- **".data ++ d.topic ++ "**: ".data ++ d.decision ++ renderOutcome d.outcome ++ "\n".data

/-- The recent-decisions section (`src/index.ts` lines 280-288), empty when
the recent list is empty. -/
def renderRecentSection (ds : List MAMADecision) : Str :=
  if ds.isEmpty then []
  else "## Recent Decisions\n\n".data ++ (ds.map renderRecentLine).flatten ++ "\n".data

/-- The post-compaction note (`src/index.ts` lines 250-251). -/
def compactionNoteText : Str :=
  "\n**Note:** Context was recently compressed. Above memories help restore state.\n".data

/-- The full injected block built by `before_agent_start`
(`src/index.ts` lines 257-295): outer delimiters, header, then the sections
in fixed order, then the compaction note when truthy. -/
def renderContent (semanticResults : List MAMADecision) (checkpoint : Option MAMACheckpoint)
    (recentDecisions : List MAMADecision) (compactionNote : Str) : Str :=
  "<relevant-memories>\n".data ++ "# MAMA Memory Context\n\n".data
    ++ renderSemanticSection semanticResults
    ++ renderCheckpointSection checkpoint
    ++ renderRecentSection recentDecisions
    ++ (if compactionNote.isEmpty then [] else compactionNote)
    ++ "</relevant-memories>".data

/-- The semantic-result list of `before_agent_start` (`src/index.ts`
lines 228-236): search runs only when the prompt is truthy and at least 5
characters; a thrown search (`Except.error`) or a `null` result yields `[]`. -/
def semanticResultsOf (promptField : Option Str)
    (search : Except Unit (Option (List MAMADecision))) : List MAMADecision :=
  let userPrompt := promptField.getD []
  if !userPrompt.isEmpty && 5 ≤ userPrompt.length then
    match search with
    | .ok r => r.getD []
    | .error _ => []
  else []

/-- The recent-decisions list of `before_agent_start` (`src/index.ts`
lines 242-245): `list({limit: 3})` is called only when the semantic search
produced no results; `recentList` is the backend's reply to that call. -/
def recentUsedOf (promptField : Option Str)
    (search : Except Unit (Option (List MAMADecision)))
    (recentList : List MAMADecision) : List MAMADecision :=
  if (semanticResultsOf promptField search).isEmpty then recentList else []

/-- The `before_agent_start` handler (`src/index.ts` lines 215-308) as a
function of the event's `prompt` field (`none` when the event is not a
record or the field is not a string), the backend's replies, and the prior
session state. Returns the updated state and the optional `prependContext`
payload. -/
def beforeAgentStart (promptField : Option Str)
    (search : Except Unit (Option (List MAMADecision)))
    (checkpoint : Option MAMACheckpoint) (recentList : List MAMADecision)
    (st : SessionState) : SessionState × Option Str :=
  let userPrompt := promptField.getD []
  let st1 := { st with lastUserPrompt :=
    if userPrompt.isEmpty then none else some (truncateText userPrompt 200) }
  let semanticResults := semanticResultsOf promptField search
  let recentDecisions := recentUsedOf promptField search recentList
  let compactionNote := if st1.compactionOccurred then compactionNoteText else []
  let st2 := if st1.compactionOccurred then { st1 with compactionOccurred := false } else st1
  if checkpoint.isSome || !semanticResults.isEmpty || !recentDecisions.isEmpty then
    (st2, some (renderContent semanticResults checkpoint recentDecisions compactionNote))
  else (st2, none)

/-! ## Auto-capture decision detection (`agent_end`, `src/index.ts` lines 313-377) -/

/-- Case-insensitive prefix test (ASCII case folding, the `/i` flag). -/
def isPrefixOfCI : Str → Str → Bool
  | [], _ => true
  | _ :: _, [] => false
  | p :: ps, c :: cs => p.toLower = c.toLower && isPrefixOfCI ps cs

/-- Case-insensitive substring containment: `regexLiteral.test(text)` for a
plain literal alternative under the `/i` flag. -/
def containsCI (pat : Str) : Str → Bool
  | [] => pat.isEmpty
  | c :: rest => isPrefixOfCI pat (c :: rest) || containsCI pat rest

/-- JS regex line terminators, which `.` does not match. -/
def isLineTerm (c : Char) : Bool :=
  c = '\n' || c = '\r' || c = ' ' || c = ' '

/-- `.*instead` continued at the current position: either `instead` matches
here, or one non-line-terminator character is consumed and we continue. -/
def dotStarThenInstead : Str → Bool
  | [] => false
  | c :: rest => isPrefixOfCI "instead".data (c :: rest) || (!isLineTerm c && dotStarThenInstead rest)

/-- Existence of a match of `use.*instead` anywhere in the text. -/
def existsUseInstead : Str → Bool
  | [] => false
  | c :: rest =>
    (isPrefixOfCI "use".data (c :: rest) && dotStarThenInstead ((c :: rest).drop 3))
      || existsUseInstead rest

/-- First decision pattern of `src/index.ts` line 350
(`/decided|Í≤∞Ï†ï|ÏÑ†ÌÉù|chose|use.*instead|going with/i`); the non-Latin
alternatives are the literal characters present in the source file. -/
def decisionPattern1 (t : Str) : Bool :=
  containsCI "decided".data t || containsCI "Í≤∞Ï†ï".data t || containsCI "ÏÑ†ÌÉù".data t
    || containsCI "chose".data t || existsUseInstead t || containsCI "going with".data t

/-- Second decision pattern of `src/index.ts` line 351
(`/will use|ÏÇ¨Ïö©Ìï†|approach|Î∞©Ïãù|strategy/i`). -/
def decisionPattern2 (t : Str) : Bool :=
  containsCI "will use".data t || containsCI "ÏÇ¨Ïö©Ìï†".data t || containsCI "approach".data t
    || containsCI "Î∞©Ïãù".data t || containsCI "strategy".data t

/-- Third decision pattern of `src/index.ts` line 352
(`/remember|Í∏∞Ïñµ|learned|Î∞∞Ïõ†|lesson/i`). -/
def decisionPattern3 (t : Str) : Bool :=
  containsCI "remember".data t || containsCI "Í∏∞Ïñµ".data t || containsCI "learned".data t
    || containsCI "Î∞∞Ïõ†".data t || containsCI "lesson".data t

/-- `decisionPatterns.some((p) => p.test(text))` (`src/index.ts` line 362). -/
def matchesDecisionPattern (t : Str) : Bool :=
  decisionPattern1 t || decisionPattern2 t || decisionPattern3 t

/-- The per-text filter of the `agent_end` loop (`src/index.ts`
lines 355-363): the chain of `continue` guards followed by the pattern
check. Returns `true` iff the text survives as an auto-capture candidate. -/
def isAutoCaptureCandidate (text : Str) : Bool :=
  if text.length < 20 ∨ 500 < text.length then false
  else if containsSub "<relevant-memories>".data text then false
  else if "<".data.isPrefixOf text ∧ containsSub "</".data text then false
  else matchesDecisionPattern text

/-- The candidate-list update of `src/index.ts` lines 367-369: skip exact
duplicates, otherwise prepend and keep the first 3. -/
def insertAutoCaptureCandidate (candidate : Str) (cands : List Str) : List Str :=
  if candidate ∈ cands then cands else (candidate :: cands).take 3

/-- One full iteration of the `agent_end` text loop (`src/index.ts`
lines 355-370): filter, truncate to 160 characters, insert. -/
def agentEndTextStep (text : Str) (cands : List Str) : List Str :=
  if isAutoCaptureCandidate text then
    insertAutoCaptureCandidate (truncateText text 160) cands
  else cands

/-! ## InitGate (`initMAMA`, `src/index.ts` lines 126-159) -/

/-- The fixed default storage path
`path.join(os.homedir(), '.claude/mama-memory.db')`; the home directory is
opaque here, so the joined path is modelled as one constant (every claim
needs only that it is a fixed non-empty string). -/
def defaultDbPath : Str := "~/.claude/mama-memory.db".data

/-- JS `a || b` on an optional string `a` (undefined and `''` falsy). -/
def jsOrStr (a : Option Str) (b : Str) : Str :=
  match a with
  | some s => if s.isEmpty then b else s
  | none => b

/-- Path resolution of `src/index.ts` lines 128-129:
`config?.dbPath || process.env.MAMA_DB_PATH || default`. -/
def resolveDbPath (config : Option Str) (env : Option Str) : Str :=
  jsOrStr config (jsOrStr env defaultDbPath)

/-- The module-level init-gate state (`src/index.ts` lines 99-101 and the
`process.env.MAMA_DB_PATH` variable it writes). -/
structure InitState where
  initialized : Bool
  initialDbPath : Option Str
  envDbPath : Option Str
deriving DecidableEq

/-- The uninitialized process state. -/
def initFresh : InitState :=
  { initialized := false, initialDbPath := none, envDbPath := none }

/-- What one `initMAMA` call reports: whether the already-initialized warning
fired, and whether the call threw (module load / `initDB` failure). -/
structure InitOutcome where
  warned : Bool
  errored : Bool
deriving DecidableEq

/-- `initMAMA` from `src/index.ts` (lines 126-159). `config` is
`config?.dbPath`; `initSucceeds` tells whether the backend module load and
`initDB()` succeed. On the already-initialized path the warning fires iff
`initialDbPath` is truthy and differs from the newly resolved path; otherwise
the env variable is written first and, on success, the gate latches. -/
def initMAMA (config : Option Str) (initSucceeds : Bool) (st : InitState) :
    InitState × InitOutcome :=
  let dbPath := resolveDbPath config st.envDbPath
  if st.initialized then
    (st, { warned := (match st.initialDbPath with
                      | some p => !p.isEmpty && dbPath ≠ p
                      | none => false),
           errored := false })
  else
    let st1 := { st with envDbPath := some dbPath }
    if initSucceeds then
      ({ st1 with initialized := true, initialDbPath := some dbPath },
       { warned := false, errored := false })
    else (st1, { warned := false, errored := true })

/-- A whole sequence of `initMAMA` calls, each with its requested config and
its would-be success flag. -/
def runInitCalls (calls : List (Option Str × Bool)) (st : InitState) : InitState :=
  calls.foldl (fun s c => (initMAMA c.1 c.2 s).1) st

/-! ## `before_compaction` (`src/index.ts` lines 457-478) -/

/-- The `before_compaction` handler as a state transformer. `initFails`
models `initMAMA` throwing (caught before any state write); `saveFails`
models `saveCheckpoint` throwing, which is caught AFTER `lastCompactionAt`
was written but BEFORE `compactionOccurred = true` runs. `now` is the ISO
timestamp string of line 462. -/
def beforeCompaction (initFails saveFails : Bool) (now : Str) (st : SessionState) :
    SessionState :=
  if initFails then st
  else
    let st1 := { st with lastCompactionAt := some now }
    if saveFails then st1
    else { st1 with compactionOccurred := true }

/-! ## Theorems for the lifecycle handlers -/

/-- C10: in `before_compaction`, a thrown `saveCheckpoint` is swallowed but
leaves a partial update: `lastCompactionAt` is already set to the current
time while `compactionOccurred` keeps its old value (it becomes `true` only
when the save succeeds). -/
theorem beforeCompaction_incomplete_on_save_failure (now : Str) (st : SessionState) :
    beforeCompaction false true now st = { st with lastCompactionAt := some now }
    ∧ (beforeCompaction false true now st).compactionOccurred = st.compactionOccurred
    ∧ (beforeCompaction false false now st).lastCompactionAt = some now
    ∧ (beforeCompaction false false now st).compactionOccurred = true := by
  refine ⟨rfl, rfl, rfl, rfl⟩

/-- Once the gate is latched, `initMAMA` leaves the state untouched. -/
theorem initMAMA_noop_of_initialized (st : InitState) (h : st.initialized = true)
    (cfg : Option Str) (ok : Bool) : (initMAMA cfg ok st).1 = st := by
  simp [initMAMA, h]

/-- Once the gate is latched, no sequence of calls changes the state. -/
theorem runInitCalls_noop_of_initialized (calls : List (Option Str × Bool)) (st : InitState)
    (h : st.initialized = true) : runInitCalls calls st = st := by
  induction calls with
  | nil => rfl
  | cons c cs ih =>
    unfold runInitCalls at *
    rw [List.foldl_cons, initMAMA_noop_of_initialized st h c.1 c.2, ih]

/-- JS `a || b` is non-empty whenever the fallback `b` is. -/
theorem jsOrStr_not_empty (a : Option Str) (b : Str) (hb : b.isEmpty = false) :
    (jsOrStr a b).isEmpty = false := by
  unfold jsOrStr
  cases a with
  | none => exact hb
  | some s => cases hs : s.isEmpty <;> simp [hs, hb]

/-- The resolved storage path is never the empty string (the default is a
fixed non-empty path and JS `||` skips empty strings). -/
theorem resolveDbPath_not_empty (c e : Option Str) : (resolveDbPath c e).isEmpty = false :=
  jsOrStr_not_empty _ _ (jsOrStr_not_empty _ _ (by decide))

/-- C2: starting from an uninitialized state, the first successful `initMAMA`
call latches the gate and fixes `initialDbPath` to the path it resolved;
every later call (any config, any success flag) leaves the state — hence the
original path — unchanged; and a later call warns exactly when the path it
would resolve differs from the original one. -/
theorem initMAMA_init_once (st0 : InitState) (cfg0 cfg : Option Str) (ok : Bool)
    (calls : List (Option Str × Bool)) (h : st0.initialized = false) :
    ((initMAMA cfg0 true st0).1.initialized = true)
    ∧ ((initMAMA cfg0 true st0).1.initialDbPath = some (resolveDbPath cfg0 st0.envDbPath))
    ∧ (runInitCalls calls (initMAMA cfg0 true st0).1 = (initMAMA cfg0 true st0).1)
    ∧ ((initMAMA cfg ok (initMAMA cfg0 true st0).1).2.warned = true ↔
        resolveDbPath cfg (some (resolveDbPath cfg0 st0.envDbPath))
          ≠ resolveDbPath cfg0 st0.envDbPath) := by
  have hst1 : (initMAMA cfg0 true st0).1 =
      { st0 with envDbPath := some (resolveDbPath cfg0 st0.envDbPath),
                 initialized := true,
                 initialDbPath := some (resolveDbPath cfg0 st0.envDbPath) } := by
    simp [initMAMA, h]
  refine ⟨by rw [hst1], by rw [hst1],
    runInitCalls_noop_of_initialized _ _ (by rw [hst1]), ?_⟩
  rw [hst1]
  simp [initMAMA, resolveDbPath_not_empty]

/-- Witness for C2: init with `/tmp/a.db`, then a second call with
`/tmp/b.db` warns and changes nothing. -/
theorem initMAMA_init_once_witness :
    ((initMAMA (some "/tmp/a.db".data) true initFresh).1.initialDbPath
      = some "/tmp/a.db".data)
    ∧ ((initMAMA (some "/tmp/b.db".data) true
        (initMAMA (some "/tmp/a.db".data) true initFresh).1).2.warned = true)
    ∧ (runInitCalls [(some "/tmp/b.db".data, true)]
        (initMAMA (some "/tmp/a.db".data) true initFresh).1
      = (initMAMA (some "/tmp/a.db".data) true initFresh).1) := by
  have H := initMAMA_init_once initFresh (some "/tmp/a.db".data) (some "/tmp/b.db".data)
    true [(some "/tmp/b.db".data, true)] rfl
  exact ⟨H.2.1.trans (by decide), H.2.2.2.mpr (by decide), H.2.2.1⟩

/-- C1: `before_agent_start` returns a `prependContext` block exactly when
the loaded checkpoint is present, the semantic-search result list is
non-empty, or the recent-decisions list it loaded is non-empty; with an
absent checkpoint and both lists empty it returns nothing. -/
theorem beforeAgentStart_inject_iff (p : Option Str)
    (search : Except Unit (Option (List MAMADecision)))
    (cp : Option MAMACheckpoint) (recent : List MAMADecision) (st : SessionState) :
    (beforeAgentStart p search cp recent st).2 ≠ none ↔
      (cp ≠ none ∨ semanticResultsOf p search ≠ []
        ∨ recentUsedOf p search recent ≠ []) := by
  unfold beforeAgentStart
  dsimp only
  split
  next hcond =>
    refine iff_of_true (by simp) ?_
    simp only [Bool.or_eq_true, Bool.not_eq_true', Option.isSome_iff_ne_none,
      List.isEmpty_eq_false] at hcond
    tauto
  next hcond =>
    refine iff_of_false (by simp) ?_
    simp only [Bool.or_eq_true, Bool.not_eq_true', Option.isSome_iff_ne_none,
      List.isEmpty_eq_false] at hcond
    tauto

/-- C4: whenever the semantic-search result list is non-empty, the handler's
block is rendered with an empty recent-decisions list — even though a
checkpoint and a non-empty backend recent list may be available — and the
renderer emits no recent-decisions section for an empty list; the section
can only ever appear when the semantic list is empty. -/
theorem beforeAgentStart_omits_recent_section (p : Option Str)
    (search : Except Unit (Option (List MAMADecision)))
    (cp : Option MAMACheckpoint) (recent : List MAMADecision) (st : SessionState)
    (h : semanticResultsOf p search ≠ []) :
    ((beforeAgentStart p search cp recent st).2 =
      some (renderContent (semanticResultsOf p search) cp []
        (if st.compactionOccurred then compactionNoteText else [])))
    ∧ renderRecentSection [] = [] := by
  have hrec : recentUsedOf p search recent = [] := by
    unfold recentUsedOf
    rw [if_neg (by simpa [List.isEmpty_iff] using h)]
  constructor
  · unfold beforeAgentStart
    dsimp only
    rw [hrec]
    rw [if_pos (by simp [List.isEmpty_iff, h])]
  · rfl

/-- Sample semantic match used in the C4 witness. -/
def sampleMatch1 : MAMADecision :=
  { id := "dec-001".data, topic := "auth".data, decision := "Use JWT".data,
    reasoning := "stateless sessions".data, similarityPct := 87,
    outcome := some "success".data }

/-- Second sample semantic match used in the C4 witness. -/
def sampleMatch2 : MAMADecision :=
  { id := "dec-002".data, topic := "tokens".data, decision := "Rotate refresh tokens".data,
    reasoning := "limit replay".data, similarityPct := 62, outcome := none }

/-- Sample recent decision used in the C4 witness. -/
def sampleRecent : MAMADecision :=
  { id := "dec-003".data, topic := "logging".data, decision := "Use pino".data,
    reasoning := "fast".data, similarityPct := 0, outcome := none }

/-- Sample checkpoint used in the C4 witness. -/
def sampleCheckpoint : MAMACheckpoint :=
  { summary := "done".data, next_steps := none,
    timestampISO := "2024-01-15T12:00:00.000Z".data }

/-- Witness for C4: two semantic matches, a checkpoint and a non-empty
backend recent list still render with an empty recent-decisions list. -/
theorem beforeAgentStart_omits_recent_section_witness :
    semanticResultsOf (some "auth strategy".data) (.ok (some [sampleMatch1, sampleMatch2])) ≠ []
    ∧ (beforeAgentStart (some "auth strategy".data) (.ok (some [sampleMatch1, sampleMatch2]))
        (some sampleCheckpoint) [sampleRecent] freshSessionState).2 =
      some (renderContent
        (semanticResultsOf (some "auth strategy".data) (.ok (some [sampleMatch1, sampleMatch2])))
        (some sampleCheckpoint) []
        (if freshSessionState.compactionOccurred then compactionNoteText else [])) :=
  ⟨by decide,
   (beforeAgentStart_omits_recent_section (some "auth strategy".data)
     (.ok (some [sampleMatch1, sampleMatch2])) (some sampleCheckpoint)
     [sampleRecent] freshSessionState (by decide)).1⟩

/-- `truncateText` never produces more than `maxLen + 3` characters. -/
theorem truncateText_length_le (text : Str) (L : Nat) :
    (truncateText text L).length ≤ L + 3 := by
  unfold truncateText
  split
  · omega
  · simp [List.length_take]

set_option maxRecDepth 100000 in
/-- C8 counterexample: a 201-character prompt is stored as
`truncateText(prompt, 200)`, which has 203 characters (200 plus the
3-character ellipsis) — more than the 200 characters the claim allows. -/
theorem lastUserPrompt_cex :
    ((beforeAgentStart (some (List.replicate 201 'a')) (Except.error ()) none []
        freshSessionState).1.lastUserPrompt
      = some (truncateText (List.replicate 201 'a') 200))
    ∧ ¬ (truncateText (List.replicate 201 'a') 200).length ≤ 200 := by
  constructor
  · rfl
  · decide

set_option maxRecDepth 100000 in
/-- Evaluation helper for the C5 witness texts (kept separate so the
elaborator handles the 500-character lists in one place). -/
theorem decisionWitnessFacts :
    matchesDecisionPattern ("decided to use X".data ++ List.replicate 484 'a') = true
    ∧ ("decided to use X".data ++ List.replicate 484 'a').length = 500
    ∧ containsSub "<relevant-memories>".data
        ("decided to use X".data ++ List.replicate 484 'a') = false
    ∧ ¬("<".data.isPrefixOf ("decided to use X".data ++ List.replicate 484 'a')
        ∧ containsSub "</".data ("decided to use X".data ++ List.replicate 484 'a'))
    ∧ matchesDecisionPattern ("decided to use X".data ++ List.replicate 485 'a') = true
    ∧ 500 < ("decided to use X".data ++ List.replicate 485 'a').length := by
  decide

/-- C8 amended: after `before_agent_start` the stored `lastUserPrompt` is
absent when the event carried no non-empty prompt, and otherwise equals
`truncateText(prompt, 200)`, whose length is at most 203 (a 200-character
prefix plus the 3-character ellipsis). -/
theorem lastUserPrompt_truncated (p : Option Str)
    (search : Except Unit (Option (List MAMADecision)))
    (cp : Option MAMACheckpoint) (recent : List MAMADecision) (st : SessionState) :
    ((beforeAgentStart p search cp recent st).1.lastUserPrompt =
      (match p with
       | none => none
       | some s => if s.isEmpty then none else some (truncateText s 200)))
    ∧ (∀ v, (beforeAgentStart p search cp recent st).1.lastUserPrompt = some v →
        v.length ≤ 203) := by
  have hmain : (beforeAgentStart p search cp recent st).1.lastUserPrompt =
      (match p with
       | none => none
       | some s => if s.isEmpty then none else some (truncateText s 200)) := by
    unfold beforeAgentStart
    dsimp only
    cases p with
    | none => split <;> split <;> rfl
    | some s => cases hs : s.isEmpty <;> split <;> split <;> simp_all [Option.getD]
  refine ⟨hmain, fun v hv => ?_⟩
  rw [hmain] at hv
  cases p with
  | none => simp at hv
  | some s =>
    have hv' : (if s.isEmpty = true then none else some (truncateText s 200)) = some v := hv
    by_cases hs : s.isEmpty = true
    · rw [if_pos hs] at hv'; simp at hv'
    · rw [if_neg hs] at hv'
      have hveq : v = truncateText s 200 := (Option.some.inj hv').symm
      rw [hveq]
      have := truncateText_length_le s 200
      omega

/-- Witness for C8 (amended) at the prompt `"hello"`. -/
theorem lastUserPrompt_truncated_witness :
    ((beforeAgentStart (some "hello".data) (Except.error ()) none []
        freshSessionState).1.lastUserPrompt = some "hello".data)
    ∧ "hello".data.length ≤ 203 := by
  have H := lastUserPrompt_truncated (some "hello".data) (Except.error ()) none []
    freshSessionState
  have h1 : (beforeAgentStart (some "hello".data) (Except.error ()) none []
      freshSessionState).1.lastUserPrompt = some "hello".data := H.1.trans (by decide)
  exact ⟨h1, H.2 _ h1⟩

/-- C5: for every text matching a decision keyword pattern, the `agent_end`
filter rejects it below 20 characters, accepts it at exactly 500 characters
(provided it is not flagged as injected content by the marker guards that
precede the length-independent checks), and rejects it above 500. -/
theorem decisionDetector_length_boundaries (t : Str)
    (hm : matchesDecisionPattern t = true) :
    (t.length < 20 → isAutoCaptureCandidate t = false)
    ∧ (t.length = 500 →
        containsSub "<relevant-memories>".data t = false →
        ¬("<".data.isPrefixOf t ∧ containsSub "</".data t) →
        isAutoCaptureCandidate t = true)
    ∧ (500 < t.length → isAutoCaptureCandidate t = false) := by
  refine ⟨?_, ?_, ?_⟩
  · intro h
    unfold isAutoCaptureCandidate
    rw [if_pos (Or.inl h)]
  · intro h500 hmark hpre
    unfold isAutoCaptureCandidate
    rw [if_neg (by omega)]
    rw [if_neg (by simp [hmark])]
    rw [if_neg hpre]
    exact hm
  · intro h
    unfold isAutoCaptureCandidate
    rw [if_pos (Or.inr h)]

/-- Witness for C5: a 19-character matching text is rejected, a 500-character
one is accepted, a 501-character one is rejected. -/
theorem decisionDetector_length_boundaries_witness :
    isAutoCaptureCandidate "decided to use XYZ!".data = false
    ∧ isAutoCaptureCandidate ("decided to use X".data ++ List.replicate 484 'a') = true
    ∧ isAutoCaptureCandidate ("decided to use X".data ++ List.replicate 485 'a') = false :=
  ⟨(decisionDetector_length_boundaries _ (by decide)).1 (by decide),
   (decisionDetector_length_boundaries _ decisionWitnessFacts.1).2.1
     decisionWitnessFacts.2.1 decisionWitnessFacts.2.2.1 decisionWitnessFacts.2.2.2.1,
   (decisionDetector_length_boundaries _ decisionWitnessFacts.2.2.2.2.1).2.2
     decisionWitnessFacts.2.2.2.2.2⟩

/-- Inserting a candidate already in the list is a no-op. -/
theorem insertCand_of_mem {c : Str} {l : List Str} (h : c ∈ l) :
    insertAutoCaptureCandidate c l = l := by
  simp [insertAutoCaptureCandidate, h]

/-- Inserting a fresh candidate prepends it and keeps the first 3. -/
theorem insertCand_of_not_mem {c : Str} {l : List Str} (h : c ∉ l) :
    insertAutoCaptureCandidate c l = (c :: l).take 3 := by
  simp [insertAutoCaptureCandidate, h]

/-- The effect of a whole sequence of candidate insertions on the
`lastAutoCaptureCandidates` list. -/
def insertAll (cs : List Str) (l : List Str) : List Str :=
  cs.foldl (fun acc c => insertAutoCaptureCandidate c acc) l

/-- Insertion preserves `Nodup` and the capacity bound 3. -/
theorem insertAll_inv (cs : List Str) : ∀ l : List Str, l.Nodup → l.length ≤ 3 →
    ((insertAll cs l).Nodup ∧ (insertAll cs l).length ≤ 3) := by
  induction cs with
  | nil => exact fun l h1 h2 => ⟨h1, h2⟩
  | cons c cs ih =>
    intro l h1 h2
    unfold insertAll at *
    rw [List.foldl_cons]
    by_cases hc : c ∈ l
    · rw [insertCand_of_mem hc]
      exact ih l h1 h2
    · rw [insertCand_of_not_mem hc]
      exact ih _ (List.Nodup.sublist (List.take_sublist 3 _) (List.nodup_cons.mpr ⟨hc, h1⟩))
        (List.length_take_le 3 _)

/-- Folding pairwise-distinct insertions from the fresh empty list keeps the
3 most recent, newest first. -/
theorem insertAll_of_nodup (cs : List Str) (h : cs.Nodup) :
    insertAll cs [] = cs.reverse.take 3 := by
  induction cs using List.reverseRecOn with
  | nil => rfl
  | append_singleton cs c ih =>
    obtain ⟨hcs, -, hdisj⟩ := List.nodup_append.mp h
    have hc : c ∉ cs := fun hmem => hdisj hmem (List.mem_singleton.mpr rfl)
    unfold insertAll at *
    rw [List.foldl_append, ih hcs, List.foldl_cons, List.foldl_nil]
    have hc3 : c ∉ cs.reverse.take 3 :=
      fun hmem => hc (List.mem_reverse.mp (List.mem_of_mem_take hmem))
    rw [insertCand_of_not_mem hc3, List.reverse_append]
    simp [List.take_succ_cons, List.take_take]

/-- C6: duplicate insertion into `autoCaptureCandidates` is a no-op; a
sequence of distinct insertions keeps exactly the 3 most recent, newest
first; and after any insertion sequence the list has at most 3 entries and
no exact duplicates. -/
theorem autoCaptureCandidates_props :
    (∀ (c : Str) (l : List Str), c ∈ l → insertAutoCaptureCandidate c l = l)
    ∧ (∀ cs : List Str, cs.Nodup → insertAll cs [] = cs.reverse.take 3)
    ∧ (∀ cs : List Str, (insertAll cs []).length ≤ 3 ∧ (insertAll cs []).Nodup) :=
  ⟨fun _ _ h => insertCand_of_mem h,
   fun cs h => insertAll_of_nodup cs h,
   fun cs =>
     have H := insertAll_inv cs [] (by simp) (by simp)
     ⟨H.2, H.1⟩⟩

/-- Witness for C6: re-inserting `"a"` changes nothing; inserting the 4
distinct candidates a, b, c, d retains exactly d, c, b. -/
theorem autoCaptureCandidates_props_witness :
    insertAutoCaptureCandidate "a".data ["a".data] = ["a".data]
    ∧ insertAll ["a".data, "b".data, "c".data, "d".data] []
        = ["d".data, "c".data, "b".data] :=
  ⟨autoCaptureCandidates_props.1 _ _ (by decide),
   (autoCaptureCandidates_props.2.1 _ (by decide)).trans (by decide)⟩

/-! ## Link-annotation extraction (C7) -/

/-- The spec's running example for link extraction. -/
def reasoningEx : Str :=
  "Some long preamble text that will be truncated. builds_on: base_idea and then more text".data

/-- A case-insensitive literal match consumes exactly as many characters as
the pattern has. -/
theorem matchLitCI_length : ∀ (pat s m r : Str),
    matchLitCI pat s = some (m, r) → m.length = pat.length := by
  intro pat
  induction pat with
  | nil =>
    intro s m r h
    simp [matchLitCI] at h
    simp [← h.1]
  | cons p ps ih =>
    intro s m r h
    cases s with
    | nil => simp [matchLitCI] at h
    | cons c cs =>
      unfold matchLitCI at h
      split at h
      · cases hrec : matchLitCI ps cs with
        | none => rw [hrec] at h; simp at h
        | some pr =>
          obtain ⟨m', r'⟩ := pr
          rw [hrec] at h
          simp at h
          rw [← h.1]
          simp [ih cs m' r' hrec]
      · simp at h

/-- Shape of every match of the first regex alternative
`(builds_on|debates):\s*[\w_-]+`: a 9- or 7-character keyword, a colon, a
(possibly empty) run of whitespace, and a non-empty run of `[\w_-]`
characters — so the match ends at the first character that cannot belong to
the identifier and never swallows trailing prose. -/
theorem matchBranch1_shape (s m : Str) (h : matchBranch1 s = some m) :
    ∃ kw sp ident, m = kw ++ ':' :: (sp ++ ident)
      ∧ (∀ c ∈ sp, isJsSpace c = true) ∧ (∀ c ∈ ident, isWordDash c = true)
      ∧ ident ≠ [] ∧ (kw.length = 9 ∨ kw.length = 7) := by
  unfold matchBranch1 at h
  cases halt : (matchLitCI "builds_on".data s).orElse (fun _ => matchLitCI "debates".data s) with
  | none => rw [halt] at h; exact Option.noConfusion h
  | some kwr =>
    rw [halt] at h
    have hkw : kwr.1.length = 9 ∨ kwr.1.length = 7 := by
      cases h1 : matchLitCI "builds_on".data s with
      | some pr1 =>
        rw [h1] at halt
        have hpr : pr1 = kwr := by simpa [Option.orElse] using halt
        left
        have hlen := matchLitCI_length "builds_on".data s pr1.1 pr1.2 (by simpa using h1)
        rw [hpr] at hlen
        simpa using hlen
      | none =>
        rw [h1] at halt
        have hdeb : matchLitCI "debates".data s = some kwr := by
          simpa [Option.orElse] using halt
        right
        simpa using matchLitCI_length "debates".data s kwr.1 kwr.2 (by simpa using hdeb)
    replace h : (match kwr.2 with
      | [] => (none : Option Str)
      | c :: r2 =>
        if c = ':' then
          if ((r2.drop (r2.takeWhile isJsSpace).length).takeWhile isWordDash).isEmpty then none
          else some (kwr.1 ++ ':' :: (r2.takeWhile isJsSpace
            ++ (r2.drop (r2.takeWhile isJsSpace).length).takeWhile isWordDash))
        else none) = some m := h
    cases hr1 : kwr.2 with
    | nil => rw [hr1] at h; exact Option.noConfusion h
    | cons c r2 =>
      rw [hr1] at h
      replace h : (if c = ':' then
          (if ((r2.drop (r2.takeWhile isJsSpace).length).takeWhile isWordDash).isEmpty then
            (none : Option Str)
          else some (kwr.1 ++ ':' :: (r2.takeWhile isJsSpace
            ++ (r2.drop (r2.takeWhile isJsSpace).length).takeWhile isWordDash)))
        else none) = some m := h
      by_cases hc : c = ':'
      · rw [if_pos hc] at h
        by_cases hident :
            ((r2.drop (r2.takeWhile isJsSpace).length).takeWhile isWordDash).isEmpty = true
        · rw [if_pos hident] at h
          exact Option.noConfusion h
        · rw [if_neg hident] at h
          refine ⟨kwr.1, r2.takeWhile isJsSpace,
            (r2.drop (r2.takeWhile isJsSpace).length).takeWhile isWordDash,
            (Option.some.inj h).symm,
            fun d hd => List.mem_takeWhile_imp hd,
            fun d hd => List.mem_takeWhile_imp hd,
            ?_, hkw⟩
          simpa [List.isEmpty_iff] using hident
      · rw [if_neg hc] at h
        exact Option.noConfusion h

set_option maxRecDepth 100000 in
/-- C7: on the spec's example (budget 30), `formatReasoning` appends exactly
the annotation `builds_on: base_idea`, without the trailing prose; in
general, an annotation already fully contained in the truncated text is
never appended a second time; and every match of the single-identifier
alternative has the shape keyword-colon-spaces-identifier, whose identifier
part contains only `[\w_-]` characters, so trailing prose is never included. -/
theorem formatReasoning_link_extraction :
    (formatReasoning reasoningEx 30
      = (reasoningEx.take 30 ++ "...".data) ++ "\n  ðŸ”— ".data ++ "builds_on: base_idea".data)
    ∧ (∀ (r : Str) (L : Nat) (m : Str), firstLinkMatch r = some m →
        containsSub m (truncPart r L) = true →
        formatReasoning r L = truncPart r L)
    ∧ (∀ (s m : Str), matchBranch1 s = some m →
        ∃ kw sp ident, m = kw ++ ':' :: (sp ++ ident)
          ∧ (∀ c ∈ sp, isJsSpace c = true) ∧ (∀ c ∈ ident, isWordDash c = true)
          ∧ ident ≠ [] ∧ (kw.length = 9 ∨ kw.length = 7)) := by
  refine ⟨by decide, ?_, fun s m h => matchBranch1_shape s m h⟩
  intro r L m h1 h2
  have hr : r.isEmpty = false := by
    cases r with
    | nil => simp [firstLinkMatch] at h1
    | cons c rest => rfl
  unfold formatReasoning
  rw [if_neg (by simp [hr])]
  rw [h1]
  exact if_pos h2

/-- Witness for C7: the annotation-bearing text under a 200 budget is
returned unchanged (the annotation is already contained, so it is not
duplicated), and the match of that text has the keyword/spaces/identifier
shape. -/
theorem formatReasoning_link_extraction_witness :
    formatReasoning "builds_on: base_idea and then we added more features".data 200
      = "builds_on: base_idea and then we added more features".data
    ∧ (∃ kw sp ident, "builds_on: base_idea".data = kw ++ ':' :: (sp ++ ident)
        ∧ (∀ c ∈ sp, isJsSpace c = true) ∧ (∀ c ∈ ident, isWordDash c = true)
        ∧ ident ≠ [] ∧ (kw.length = 9 ∨ kw.length = 7)) :=
  ⟨(formatReasoning_link_extraction.2.1
      "builds_on: base_idea and then we added more features".data 200
      "builds_on: base_idea".data (by decide) (by decide)).trans (by decide),
   formatReasoning_link_extraction.2.2
     "builds_on: base_idea and then we added more features".data
     "builds_on: base_idea".data (by decide)⟩

end Mama
